import Mathlib

/-!
# Keeper filters of the loop-strategy monitor

A shallow embedding of `src/keeper/src/filters/loopStrategy.js` (the condition
handler and its three evaluators) and of the older handler in
`src/keeper/filters/loopStrategy.js`.

Conventions of the embedding:

* an `async` function that may reject is a function into `Except JsError`; a
  `throw` is `Except.error`;
* the `matches` array that the evaluators push to is passed in and returned
  (it is called `ms` below, `matches` being reserved in Lean);
* the key-value store is a value of an arbitrary type `σ` that is passed in and
  returned by everything that receives `store` in the source;
* contract reads, `ethers.utils.getAddress` and the functions imported from
  `../actions/checks` and `../actions/utils` are the fields of a `World`; within
  one invocation a read of a given contract is a function of its arguments;
* the calls of a `Promise.all` are bound in array order, so that when several
  reject the first in that order is the error reported;
* `console.log` / `console.error` lines have no effect on results and are left
  out.
-/

set_option autoImplicit false

namespace Keeper


/-! ## Values -/

/-- An address or any other string key, as JavaScript strings. -/
abbrev Address := String

/-- An `ethers.BigNumber`: an arbitrary-precision signed integer. -/
abbrev BigNumber := Int

/-- Errors a handler can reject with. -/
inductive JsError where
  | typeError (message : String)
  | referenceError (message : String)
  | invalidArgument (message : String)
  | callException (message : String)
  deriving DecidableEq, Repr

/-- The two kinds of value a contract read resolves to for an integer return
type: ethers v5 decodes `uint256` to a `BigNumber` object, a test stub may
resolve a native number. -/
inductive JsValue where
  | number (n : Int)
  | bigNumber (n : BigNumber)
  deriving DecidableEq, Repr

/-- The expression `v === k` for a number literal `k`: strict equality holds
only between two native numbers of the same value; an object is never strictly
equal to a primitive. -/
def strictEqualsNumber (v : JsValue) (k : Int) : Bool :=
  match v with
  | JsValue.number n => n == k
  | JsValue.bigNumber _ => false

/-! ## `ethers.utils.parseUnits` -/

/-- The value of a string of decimal digits, `none` when a character is not a
digit. -/
def digitsValue : List Char → Nat → Option Nat
  | [], acc => some acc
  | c :: cs, acc =>
    if c.isDigit then digitsValue cs (acc * 10 + (c.toNat - 48)) else none

/-- Split at the first `.`; the second component is `none` when there is no
point. -/
def splitPoint : List Char → List Char × Option (List Char)
  | [] => ([], none)
  | c :: cs =>
    if c = '.' then ([], some cs)
    else
      let r := splitPoint cs
      (c :: r.1, r.2)

/-- Drop the trailing zeros of a digit string. -/
def trimTrailingZeros (cs : List Char) : List Char :=
  (cs.reverse.dropWhile (fun c => c = '0')).reverse

/-- The function `parseFixed` behind `ethers.utils.parseUnits(value, decimals)`
of ethers v5 for a value without sign: the whole part times `10 ^ decimals`
plus the fraction padded with zeros to `decimals` digits. `none` stands for the
thrown error (no digits at all, a second point, a character that is not a
digit, more fraction digits than `decimals`). -/
def parseUnits (value : String) (decimals : Nat) : Option BigNumber :=
  let cs := value.toList
  if cs = [] ∨ cs = ['.'] then none
  else
    let parts := splitPoint cs
    let whole := if parts.1 = [] then ['0'] else parts.1
    let fraction := trimTrailingZeros (parts.2.getD [])
    if fraction.length > decimals then none
    else
      let padded := fraction ++ List.replicate (decimals - fraction.length) '0'
      match digitsValue whole 0, digitsValue padded 0 with
      | some w, some f => some (((w * 10 ^ decimals + f : Nat) : Int))
      | _, _ => none

/-! ## Constants of `src/keeper/src/filters/loopStrategy.js` -/

def depositSig : String := "Deposit(address,address,uint256,uint256)"

def withdrawSig : String := "Withdraw(address,address,address,uint256,uint256)"

def priceUpdateSig : String := "AnswerUpdated(int256,uint256,uint256)"

def poolLiquidationSig : String :=
  "LiquidationCall(address,address,address,uint256,uint256,address,bool)"

def poolBorrowSig : String := "Borrow(address,address,address,uint256,uint8,uint256,uint16)"

def poolRepaySig : String := "Repay(address,address,address,uint256,bool)"

def poolWithdrawSig : String := "Withdraw(address,address,address,uint256)"

def poolSupplySig : String := "Supply(address,address,address,uint256,uint16)"

/-- Strategy 3x wstETH/WETH. -/
def strategyWstEthWeth : Address := "0x258730e23cF2f25887Cb962d32Bd10b878ea8a4e"

/-- Strategy 1.5x WETH/USDC. -/
def strategyWethUsdc : Address := "0x2FB1bEa0a63F77eFa77619B903B2830b52eE78f4"

def oracleWstEthEth : Address := "0xa669E5272E60f78299F4824495cE01a3923f4380"

def oracleEthUsd : Address := "0x71041dddad3595F9CEd3DcCFBe3D1F4b0a16Bb70"

def oracleUsdcUsd : Address := "0x7e860098F58bBFC8648a4311b374B1D669a2bc6B"

def reserveWeth : Address := "0x4200000000000000000000000000000000000006"

def reserveUsdc : Address := "0x833589fCD6eDb6E08f4c7C32D4f71b54bdA02913"

/-- Own-property lookup `table[key]` of an object literal; `none` is
`undefined`. Keys are outputs of `getAddress`, which are `0x` followed by forty
hexadecimal digits, so no inherited property is ever named. -/
def lookup {β : Type} (key : String) : List (String × β) → Option β
  | [] => none
  | (k, v) :: rest => if k = key then some v else lookup key rest

/-- The three static tables of the module. -/
structure Tables where
  oracleToStrategies : List (Address × List Address)
  strategyInterestThreshold : List (Address × BigNumber)
  debtTokenToStrategies : List (Address × List Address)

def oracleToStrategies : List (Address × List Address) :=
  [ (oracleWstEthEth, [strategyWstEthWeth]),
    (oracleEthUsd, [strategyWstEthWeth, strategyWethUsdc]),
    (oracleUsdcUsd, [strategyWethUsdc]) ]

/-- The value of `ethers.BigNumber.from(ethers.utils.parseUnits(s, d))` for a
literal on which `parseUnits` does not throw. -/
def parsedUnits (s : String) (d : Nat) (h : (parseUnits s d).isSome = true) : BigNumber :=
  (parseUnits s d).get h

def strategyInterestThreshold : List (Address × BigNumber) :=
  [ (strategyWstEthWeth, parsedUnits "3.0" 27 (by decide)),
    (strategyWethUsdc, parsedUnits "5.0" 27 (by decide)) ]

def debtTokenToStrategies : List (Address × List Address) :=
  [ (reserveWeth, [strategyWstEthWeth]),
    (reserveUsdc, [strategyWethUsdc]) ]

def healthFactorThreshold : BigNumber := parsedUnits "1.1" 8 (by decide)

/-- The tables as written in the source. -/
def tables : Tables :=
  { oracleToStrategies := oracleToStrategies
    strategyInterestThreshold := strategyInterestThreshold
    debtTokenToStrategies := debtTokenToStrategies }

/-! ## Data model -/

/-- Modelled from the spec: the record `isStrategyAtRisk` of
`src/actions/checks.js` resolves to (that module is not among the sources);
`{ isAtRisk: bool, healthFactor: integer }`. -/
structure RiskState where
  isAtRisk : Bool
  healthFactor : BigNumber
  deriving DecidableEq, Repr

/-- Modelled from the spec: the record `isStrategyOverexposed` of
`src/actions/checks.js` resolves to; `{ isOverExposed: bool, current: integer,
min: integer }`. -/
structure ExposureState where
  isOverExposed : Bool
  current : BigNumber
  min : BigNumber
  deriving DecidableEq, Repr

/-- Modelled from the spec: the record `hasEPSDecreased` of
`src/actions/checks.js` resolves to; `{ hasEPSDecreased: bool, previous,
current }`, `previous` being absent at the first observation. -/
structure EPSState where
  hasEPSDecreased : Bool
  previous : Option BigNumber
  current : BigNumber
  deriving DecidableEq, Repr

/-- Modelled from the spec: the record `isOracleOut` of `src/actions/checks.js`
resolves to; `{ isOut: bool, ... }`, the remaining fields kept as one list. -/
structure OracleState where
  isOut : Bool
  details : List BigNumber
  deriving DecidableEq, Repr

/-- The fields of a match metadata other than `type`: the object passed as
third argument of `createMatch`, one constructor per call site, and the single
field of the object literal of the older handler. None has a key named
`type`. -/
inductive MatchData where
  | strategiesToRebalance (strategiesToRebalance : List Address)
  | riskState (riskState : RiskState)
  | exposureState (exposureState : ExposureState)
  | EPSState (epsState : EPSState)
  | priceUpdate (strategiesToRebalance : List Address) (oracleState : OracleState)
      (isSequencerOut : Bool)
  | borrowRate (reserve : Address) (currBorrowRate : BigNumber)
      (affectedStrategies : List Address)
  deriving DecidableEq, Repr

/-- The object `{ type, ...metadata }`. -/
structure Metadata where
  type : String
  fields : MatchData
  deriving DecidableEq, Repr

/-- A match record `{ hash, metadata }`. -/
structure Match where
  hash : String
  metadata : Metadata
  deriving DecidableEq, Repr

def createMatch (hash : String) (type : String) (metadata : MatchData) : Match :=
  { hash := hash, metadata := { type := type, fields := metadata } }

/-- One entry of `evt.matchReasons`; `args[0]` is `args.head?`. -/
structure Reason where
  signature : String
  address : String
  args : List String
  deriving DecidableEq, Repr

structure Event where
  hash : String
  matchReasons : List Reason
  deriving DecidableEq, Repr

structure ConditionRequest where
  events : List Event

structure Request where
  body : ConditionRequest

structure Payload where
  request : Request

/-- The tuple `getReserveData` resolves to, one field per component of the
declared return type `tuple(uint256,uint128,uint128,uint128,uint128,uint128,
uint40,uint16,address,address,address,address,uint128,uint128,uint128)`. -/
structure ReserveData where
  f0 : BigNumber
  f1 : BigNumber
  f2 : BigNumber
  f3 : BigNumber
  f4 : BigNumber
  f5 : BigNumber
  f6 : Nat
  f7 : Nat
  f8 : Address
  f9 : Address
  f10 : Address
  f11 : Address
  f12 : BigNumber
  f13 : BigNumber
  f14 : BigNumber
  deriving DecidableEq, Repr

/-- Everything the handler calls that is outside the module: the address
normaliser of ethers (`none` is an `undefined` argument), the contract reads,
and the functions of `../actions/checks` and `../actions/utils`. A contract is
named by its address. -/
structure World (σ : Type) where
  getAddress : Option String → Except JsError Address
  rebalanceNeeded : Address → Except JsError Bool
  latestAnswer : Address → Except JsError JsValue
  getReserveData : Address → Address → Except JsError ReserveData
  isStrategyAtRisk : Address → BigNumber → Except JsError RiskState
  isStrategyOverexposed : Address → Except JsError ExposureState
  hasEPSDecreased : σ → Address → Except JsError (EPSState × σ)
  isOracleOut : σ → Address → Except JsError (OracleState × σ)
  equityPerShare : Address → Except JsError BigNumber
  updateEPS : σ → Address → BigNumber → Except JsError σ

deriving instance DecidableEq for Except

/-! ## Evaluators -/

variable {σ : Type}

/-- The three pushes at the end of `handleWithdrawOrDeposit`. -/
def pushStates (reasonType : String) (evtHash : String) (ms : List Match)
    (riskState : RiskState) (exposureState : ExposureState) (epsState : EPSState) :
    List Match :=
  let ms := if riskState.isAtRisk then
    ms ++ [createMatch evtHash reasonType (MatchData.riskState riskState)] else ms
  let ms := if exposureState.isOverExposed then
    ms ++ [createMatch evtHash reasonType (MatchData.exposureState exposureState)] else ms
  let ms := if epsState.hasEPSDecreased then
    ms ++ [createMatch evtHash reasonType (MatchData.EPSState epsState)] else ms
  ms

/-- The function `handleWithdrawOrDeposit`. The three checks of the
`Promise.all` are bound in array order; only the third receives the store. -/
def handleWithdrawOrDeposit (w : World σ) (reasonType : String) (reason : Reason)
    (evtHash : String) (ms : List Match) (store : σ) : Except JsError (List Match × σ) := do
  let strategy ← w.getAddress (some reason.address)
  let riskState ← w.isStrategyAtRisk strategy healthFactorThreshold
  let exposureState ← w.isStrategyOverexposed strategy
  let (epsState, store) ← w.hasEPSDecreased store strategy
  pure (pushStates reasonType evtHash ms riskState exposureState epsState, store)

/-- The `for ... of` loop of `handlePriceUpdate` over the strategies of the
oracle, carrying `strategiesToRebalance` and the store. -/
def rebalanceLoop (w : World σ) :
    List Address → List Address → σ → Except JsError (List Address × σ)
  | [], strategiesToRebalance, store => pure (strategiesToRebalance, store)
  | affectedStrategy :: rest, strategiesToRebalance, store => do
    let eps ← w.equityPerShare affectedStrategy
    let store ← w.updateEPS store affectedStrategy eps
    let needed ← w.rebalanceNeeded affectedStrategy
    let strategiesToRebalance :=
      if needed then strategiesToRebalance ++ [affectedStrategy] else strategiesToRebalance
    rebalanceLoop w rest strategiesToRebalance store

/-- The function `handlePriceUpdate`. -/
def handlePriceUpdate (w : World σ) (T : Tables) (reason : Reason) (evtHash : String)
    (ms : List Match) (store : σ) : Except JsError (List Match × σ) := do
  let oracleAddress ← w.getAddress (some reason.address)
  let latestAnswer ← w.latestAnswer oracleAddress
  let (strategiesToRebalance, store) ←
    rebalanceLoop w ((lookup oracleAddress T.oracleToStrategies).getD []) [] store
  let (oracleState, store) ← w.isOracleOut store oracleAddress
  let isSequencerOut := strictEqualsNumber latestAnswer 1
  if strategiesToRebalance.length > 0 || oracleState.isOut || isSequencerOut then
    pure (ms ++ [createMatch evtHash "priceUpdate"
      (MatchData.priceUpdate strategiesToRebalance oracleState isSequencerOut)], store)
  else
    pure (ms, store)

/-- The call `strategies.filter((strategy) =>
strategyInterestThreshold[strategy].lt(variableBorrowRate))`; a strategy
without an entry makes the callback throw. -/
def filterBelowRate (thresholds : List (Address × BigNumber)) (variableBorrowRate : BigNumber) :
    List Address → Except JsError (List Address)
  | [] => pure []
  | strategy :: rest =>
    match lookup strategy thresholds with
    | none => throw (JsError.typeError "Cannot read properties of undefined (reading lt)")
    | some threshold => do
      let kept ← filterBelowRate thresholds variableBorrowRate rest
      pure (if threshold < variableBorrowRate then strategy :: kept else kept)

/-- The function `handlePoolAction`. -/
def handlePoolAction (w : World σ) (T : Tables) (reason : Reason) (evtHash : String)
    (ms : List Match) : Except JsError (List Match) := do
  let reserveAddress ← w.getAddress reason.args.head?
  match lookup reserveAddress T.debtTokenToStrategies with
  | none => pure ms
  | some strategies =>
    let pool ← w.getAddress (some reason.address)
    let reserveData ← w.getReserveData pool reserveAddress
    let variableBorrowRate := reserveData.f3
    let affectedStrategies ←
      filterBelowRate T.strategyInterestThreshold variableBorrowRate strategies
    if affectedStrategies.length > 0 then
      pure (ms ++ [createMatch evtHash "borrowRate"
        (MatchData.borrowRate reserveAddress variableBorrowRate affectedStrategies)])
    else
      pure ms

/-! ## Dispatcher -/

/-- A block `try { body } catch (err) { console.log(...); throw err; }`. -/
def tryRethrow {α : Type} (body : Except JsError α) : Except JsError α :=
  tryCatch body (fun err => throw err)

/-- The body of the inner loop of `handler`: the three `try` blocks for one
match reason. -/
def handleReason (w : World σ) (T : Tables) (evtHash : String) (reason : Reason)
    (ms : List Match) (store : σ) : Except JsError (List Match × σ) := do
  let reasonSig := reason.signature
  let (ms, store) ← tryRethrow (
    if [withdrawSig, depositSig].contains reasonSig then
      let reasonType := if reasonSig = withdrawSig then "withdraw" else "deposit"
      handleWithdrawOrDeposit w reasonType reason evtHash ms store
    else pure (ms, store))
  let (ms, store) ← tryRethrow (
    if reasonSig = priceUpdateSig then
      handlePriceUpdate w T reason evtHash ms store
    else pure (ms, store))
  let ms ← tryRethrow (
    if [poolBorrowSig, poolRepaySig, poolWithdrawSig, poolSupplySig,
        poolLiquidationSig].contains reasonSig then
      handlePoolAction w T reason evtHash ms
    else pure ms)
  pure (ms, store)

/-- The loop `for (let reason of evt.matchReasons)`. -/
def handleReasons (w : World σ) (T : Tables) (evtHash : String) :
    List Reason → List Match → σ → Except JsError (List Match × σ)
  | [], ms, store => pure (ms, store)
  | reason :: rest, ms, store => do
    let (ms, store) ← handleReason w T evtHash reason ms store
    handleReasons w T evtHash rest ms store

/-- The loop `for (let evt of events)`. -/
def handleEvents (w : World σ) (T : Tables) :
    List Event → List Match → σ → Except JsError (List Match × σ)
  | [], ms, store => pure (ms, store)
  | evt :: rest, ms, store => do
    let (ms, store) ← handleReasons w T evt.hash evt.matchReasons ms store
    handleEvents w T rest ms store

/-- The object `{ matches }` the handler resolves to. -/
structure HandlerResult where
  matchList : List Match
  deriving DecidableEq, Repr

/-- The exported `handler`, for the tables `T`, in the world `w`, on a store
whose content is `store` when the invocation starts. -/
def handlerWith (w : World σ) (T : Tables) (payload : Payload) (store : σ) :
    Except JsError (HandlerResult × σ) := do
  let conditionRequest := payload.request.body
  let events := conditionRequest.events
  let (ms, store) ← handleEvents w T events [] store
  pure ({ matchList := ms }, store)

/-- The exported `handler` of `src/keeper/src/filters/loopStrategy.js`. -/
def handler (w : World σ) (payload : Payload) (store : σ) :
    Except JsError (HandlerResult × σ) :=
  handlerWith w tables payload store

/-! ## A concrete world

A world in which every read succeeds and nothing is adverse; the store counts
the calls of `updateEPS`. Examples below vary single fields of it. -/

def zeroReserveData : ReserveData :=
  { f0 := 0, f1 := 0, f2 := 0, f3 := 0, f4 := 0, f5 := 0, f6 := 0, f7 := 0,
    f8 := "", f9 := "", f10 := "", f11 := "", f12 := 0, f13 := 0, f14 := 0 }

def calmWorld : World Nat :=
  { getAddress := fun a =>
      match a with
      | some s => Except.ok s
      | none => Except.error (JsError.invalidArgument "invalid address")
    rebalanceNeeded := fun _ => Except.ok false
    latestAnswer := fun _ => Except.ok (JsValue.bigNumber 250000000000)
    getReserveData := fun _ _ => Except.ok zeroReserveData
    isStrategyAtRisk := fun _ _ => Except.ok { isAtRisk := false, healthFactor := 200000000 }
    isStrategyOverexposed := fun _ =>
      Except.ok { isOverExposed := false, current := 100, min := 90 }
    hasEPSDecreased := fun store _ =>
      Except.ok ({ hasEPSDecreased := false, previous := some 10, current := 10 }, store)
    isOracleOut := fun store _ => Except.ok ({ isOut := false, details := [] }, store)
    equityPerShare := fun _ => Except.ok 10
    updateEPS := fun store _ _ => Except.ok (store + 1) }

/-- The world `calmWorld` with the pool reporting `rate` in field 3. -/
def rateWorld (rate : BigNumber) : World Nat :=
  { calmWorld with getReserveData := fun _ _ => Except.ok { zeroReserveData with f3 := rate } }

/-! ## Specification-side predicates -/

/-- The strategy has a configured threshold and it is strictly below `rate`. -/
def thresholdBelow (thresholds : List (Address × BigNumber)) (rate : BigNumber)
    (strategy : Address) : Bool :=
  match lookup strategy thresholds with
  | some threshold => decide (threshold < rate)
  | none => false

/-- Tables with one reserve mapped to two strategies, of thresholds 3% and 5%
on the scale on which `10 ^ 27` is 100%. -/
def twoStrategyTables : Tables :=
  { oracleToStrategies := []
    strategyInterestThreshold :=
      [ (strategyWstEthWeth, 3 * 10 ^ 25), (strategyWethUsdc, 5 * 10 ^ 25) ]
    debtTokenToStrategies := [ (reserveWeth, [strategyWstEthWeth, strategyWethUsdc]) ] }

/-! ## Sample inputs, sample worlds and specification-side definitions -/

/-- A pool `Borrow` reason on the WETH reserve. -/
def borrowWethReason : Reason :=
  { signature := poolBorrowSig
    address := "0xA238Dd80C259a72e81d7e4664a9801593F98d1c5"
    args := [reserveWeth] }

/-- The signatures the pool-action block accepts. -/
def poolSigs : List String :=
  [poolBorrowSig, poolRepaySig, poolWithdrawSig, poolSupplySig, poolLiquidationSig]

/-- The strategies `oracleToStrategies[oracleAddress] || []`. -/
def mappedStrategies (T : Tables) (oracleAddress : Address) : List Address :=
  (lookup oracleAddress T.oracleToStrategies).getD []

/-- An `AnswerUpdated` reason of the ETH-USD oracle. -/
def ethUsdReason : Reason :=
  { signature := priceUpdateSig, address := oracleEthUsd, args := [] }

/-- An `AnswerUpdated` reason of an oracle that is not in the table. -/
def unmappedOracle : Address := "0x4aDC67696bA383F43DD60A9e78F2C97Fbbfc7cb1"

def unmappedOracleReason : Reason :=
  { signature := priceUpdateSig, address := unmappedOracle, args := [] }

/-- The world `calmWorld` in which exactly the strategies of `needing` report
`rebalanceNeeded`. -/
def rebalanceWorld (needing : List Address) : World Nat :=
  { calmWorld with rebalanceNeeded := fun s => Except.ok (needing.contains s) }

/-- The world `calmWorld` in which the oracle check reports an outage. -/
def oracleOutWorld : World Nat :=
  { calmWorld with
    isOracleOut := fun store _ => Except.ok ({ isOut := true, details := [] }, store) }

/-- The world `calmWorld` in which `latestAnswer()` resolves to `v`. -/
def answerWorld (v : JsValue) : World Nat :=
  { calmWorld with latestAnswer := fun _ => Except.ok v }

/-- The world `oracleOutWorld` in which `latestAnswer()` resolves to the
big-number 1. -/
def sequencerDownWorld : World Nat :=
  { oracleOutWorld with latestAnswer := fun _ => Except.ok (JsValue.bigNumber 1) }

/-- The matches the three states call for, in the order risk, exposure, EPS. -/
def expectedStateMatches (reasonType : String) (evtHash : String) (riskState : RiskState)
    (exposureState : ExposureState) (epsState : EPSState) : List Match :=
  (if riskState.isAtRisk then
      [
        ({ hash := evtHash,
           metadata := { type := reasonType,
                         fields := (MatchData.riskState riskState) } } : Match)] else [])
    ++ (if exposureState.isOverExposed then
      [
        ({ hash := evtHash,
           metadata := { type := reasonType,
                         fields := (MatchData.exposureState exposureState) } } : Match)] else [])
    ++ (if epsState.hasEPSDecreased then
      [
        ({ hash := evtHash,
           metadata := { type := reasonType,
                         fields := (MatchData.EPSState epsState) } } : Match)] else [])

/-- A world in which the strategy is at risk and its equity per share has
decreased, but it is not over-exposed. -/
def adverseWorld : World Nat :=
  { calmWorld with
    isStrategyAtRisk := fun _ _ => Except.ok { isAtRisk := true, healthFactor := 105000000 }
    hasEPSDecreased := fun store _ =>
      Except.ok ({ hasEPSDecreased := true, previous := some 10, current := 9 }, store) }

def withdrawReason : Reason :=
  { signature := withdrawSig, address := strategyWstEthWeth, args := [] }

def depositReason : Reason :=
  { signature := depositSig, address := strategyWstEthWeth, args := [] }

/-- The evaluator that `handler` invokes for `reason`, on the matches `ms` and
the store `store` reached so far, rejects with `e`. -/
def evaluatorFails (w : World σ) (T : Tables) (evtHash : String) (reason : Reason)
    (ms : List Match) (store : σ) (e : JsError) : Prop :=
  (reason.signature = withdrawSig ∧
      handleWithdrawOrDeposit w "withdraw" reason evtHash ms store = Except.error e)
    ∨ (reason.signature = depositSig ∧
      handleWithdrawOrDeposit w "deposit" reason evtHash ms store = Except.error e)
    ∨ (reason.signature = priceUpdateSig ∧
      handlePriceUpdate w T reason evtHash ms store = Except.error e)
    ∨ (reason.signature ∈ poolSigs ∧
      handlePoolAction w T reason evtHash ms = Except.error e)

/-- The event `evt` with its match reasons replaced. -/
def withReasons (evt : Event) (reasons : List Reason) : Event :=
  { hash := evt.hash, matchReasons := reasons }

/-- The payload whose event batch is `events`. -/
def payloadOf (events : List Event) : Payload :=
  { request := { body := { events := events } } }

/-- The world `oracleOutWorld` in which the pool read reverts. -/
def poolDownWorld : World Nat :=
  { oracleOutWorld with
    getReserveData := fun _ _ => Except.error (JsError.callException "call revert exception") }

/-! ## The older handler, `src/keeper/filters/loopStrategy.js` -/

namespace Legacy

/-- The table of the older module: two oracles, one strategy each. -/
def oracleToStrategies : List (Address × List Address) :=
  [ (oracleWstEthEth, [strategyWstEthWeth]),
    (oracleEthUsd, [strategyWstEthWeth]) ]

/-- The native number `10 ** 8`. -/
def healthFactorThreshold : Int := 10 ^ 8

/-- What the older handler calls outside its module: the address normaliser,
the strategy read, and the five alert functions it imports from `./utils`. -/
structure AlertWorld (σ : Type) where
  getAddress : Option String → Except JsError Address
  rebalanceNeeded : Address → Except JsError Bool
  sendHealthFactorAlert : Address → Int → Except JsError Unit
  sendExposureAlert : Address → Except JsError Unit
  sendEPSAlert : σ → Address → Except JsError σ
  sendOracleOutageAlert : σ → Address → Except JsError σ
  sendSequencerOutageAlert : Address → Except JsError Unit

/-- The loop `for (let affectedStrategy of oracleToStrategies[reason.address])`
once the value is known to be a list. Its first call names `updateEPS`, which
the module neither declares nor imports, so evaluating the callee throws. -/
def rebalanceLoop (w : AlertWorld σ) :
    List Address → List Address → Except JsError (List Address)
  | [], strategiesToRebalance => pure strategiesToRebalance
  | affectedStrategy :: rest, strategiesToRebalance => do
    let _ ← (throw (JsError.referenceError "updateEPS is not defined") : Except JsError Unit)
    let needed ← w.rebalanceNeeded affectedStrategy
    let strategiesToRebalance :=
      if needed then strategiesToRebalance ++ [affectedStrategy] else strategiesToRebalance
    rebalanceLoop w rest strategiesToRebalance

/-- The body of the inner loop of the older `handler`. The table is indexed by
`reason.address` as received; iterating `undefined` throws a `TypeError`.
`strategiesToRebalance` is declared outside both loops and carried along. -/
def handleReason (w : AlertWorld σ) (evtHash : String) (reason : Reason) (ms : List Match)
    (strategiesToRebalance : List Address) (store : σ) :
    Except JsError (List Match × List Address × σ) := do
  let store ←
    if reason.signature = withdrawSig then do
      let strategy ← w.getAddress (some reason.address)
      w.sendHealthFactorAlert strategy healthFactorThreshold
      w.sendExposureAlert strategy
      w.sendEPSAlert store strategy
    else pure store
  if reason.signature = priceUpdateSig then do
    let oracle ← w.getAddress (some reason.address)
    match lookup reason.address oracleToStrategies with
    | none => throw (JsError.typeError "oracleToStrategies[reason.address] is not iterable")
    | some strategies =>
      let strategiesToRebalance ← rebalanceLoop w strategies strategiesToRebalance
      let ms := ms ++ [{ hash := evtHash, metadata :=
        { type := "priceUpdate",
          fields := MatchData.strategiesToRebalance strategiesToRebalance } }]
      let store ← w.sendOracleOutageAlert store oracle
      w.sendSequencerOutageAlert oracle
      pure (ms, strategiesToRebalance, store)
  else pure (ms, strategiesToRebalance, store)

def handleReasons (w : AlertWorld σ) (evtHash : String) :
    List Reason → List Match → List Address → σ →
      Except JsError (List Match × List Address × σ)
  | [], ms, strategiesToRebalance, store => pure (ms, strategiesToRebalance, store)
  | reason :: rest, ms, strategiesToRebalance, store => do
    let (ms, strategiesToRebalance, store) ←
      handleReason w evtHash reason ms strategiesToRebalance store
    handleReasons w evtHash rest ms strategiesToRebalance store

def handleEvents (w : AlertWorld σ) :
    List Event → List Match → List Address → σ →
      Except JsError (List Match × List Address × σ)
  | [], ms, strategiesToRebalance, store => pure (ms, strategiesToRebalance, store)
  | evt :: rest, ms, strategiesToRebalance, store => do
    let (ms, strategiesToRebalance, store) ←
      handleReasons w evt.hash evt.matchReasons ms strategiesToRebalance store
    handleEvents w rest ms strategiesToRebalance store

/-- The exported `handler` of `src/keeper/filters/loopStrategy.js`. -/
def handler (w : AlertWorld σ) (payload : Payload) (store : σ) :
    Except JsError (HandlerResult × σ) := do
  let conditionRequest := payload.request.body
  let events := conditionRequest.events
  let (ms, _, store) ← handleEvents w events [] [] store
  pure ({ matchList := ms }, store)

/-- A world in which every call of the older handler succeeds. -/
def calmAlertWorld : AlertWorld Nat :=
  { getAddress := fun a =>
      match a with
      | some s => Except.ok s
      | none => Except.error (JsError.invalidArgument "invalid address")
    rebalanceNeeded := fun _ => Except.ok false
    sendHealthFactorAlert := fun _ _ => Except.ok ()
    sendExposureAlert := fun _ => Except.ok ()
    sendEPSAlert := fun store _ => Except.ok store
    sendOracleOutageAlert := fun store _ => Except.ok store
    sendSequencerOutageAlert := fun _ => Except.ok () }

end Legacy

/-! ## The exposure check of `src/actions/checks.js` -/

/-- The tuple `getCollateralRatioTargets` resolves to,
`tuple(uint256,uint256,uint256,uint256,uint256)`; index 1 is `t.2.1`. -/
abbrev CollateralRatioTargets := BigNumber × BigNumber × BigNumber × BigNumber × BigNumber

/-- Modelled from the spec: the function `isStrategyOverexposed` of
`src/actions/checks.js`, which is not among the sources (its test
`test/utils.t.js` is), on the values its two reads resolve to: `current` is the
live collateral ratio, `min` the second element of the targets, and
`isOverExposed` iff `current < min`. -/
def isStrategyOverexposed (currentCollateralRatio : BigNumber)
    (targets : CollateralRatioTargets) : ExposureState :=
  { isOverExposed := decide (currentCollateralRatio < targets.2.1)
    current := currentCollateralRatio
    min := targets.2.1 }

/-! ## Lemmas on the tables and on the filter -/

theorem threshold_values :
    strategyInterestThreshold =
      [ (strategyWstEthWeth, 3 * 10 ^ 27), (strategyWethUsdc, 5 * 10 ^ 27) ] := by
  decide

theorem debtToken_cases {reserve : Address} {strategies : List Address}
    (h : lookup reserve debtTokenToStrategies = some strategies) :
    (reserve = reserveWeth ∧ strategies = [strategyWstEthWeth]) ∨
      (reserve = reserveUsdc ∧ strategies = [strategyWethUsdc]) := by
  unfold debtTokenToStrategies at h
  simp only [lookup] at h
  split_ifs at h with h1 h2
  · left; exact ⟨h1.symm, (Option.some.inj h).symm⟩
  · right; exact ⟨h2.symm, (Option.some.inj h).symm⟩

theorem debtToken_thresholds_defined {reserve : Address} {strategies : List Address}
    (h : lookup reserve debtTokenToStrategies = some strategies) :
    ∀ s ∈ strategies, (lookup s strategyInterestThreshold).isSome = true := by
  rcases debtToken_cases h with ⟨_, rfl⟩ | ⟨_, rfl⟩ <;>
    · intro s hs
      simp only [List.mem_singleton] at hs
      subst hs
      decide

/-- When every listed strategy has a threshold the filter callback never throws
and the call is the list filter. -/
theorem filterBelowRate_eq_filter (thresholds : List (Address × BigNumber)) (rate : BigNumber)
    (strategies : List Address)
    (h : ∀ s ∈ strategies, (lookup s thresholds).isSome = true) :
    filterBelowRate thresholds rate strategies =
      Except.ok (strategies.filter (thresholdBelow thresholds rate)) := by
  induction strategies with
  | nil => rfl
  | cons s rest ih =>
    have hs := h s (List.mem_cons_self s rest)
    have hrest : ∀ x ∈ rest, (lookup x thresholds).isSome = true :=
      fun x hx => h x (List.mem_cons_of_mem s hx)
    obtain ⟨t, ht⟩ := Option.isSome_iff_exists.mp hs
    simp only [filterBelowRate, ht, ih hrest, List.filter_cons, thresholdBelow]
    by_cases hlt : t < rate <;> simp [hlt, bind, Except.bind, pure, Except.pure]

theorem thresholdBelow_iff (thresholds : List (Address × BigNumber)) (rate : BigNumber)
    (s : Address) :
    thresholdBelow thresholds rate s = true ↔
      ∃ t, lookup s thresholds = some t ∧ t < rate := by
  unfold thresholdBelow
  cases hl : lookup s thresholds with
  | none => simp
  | some t => simp

/-! ## The dispatcher, one reason at a time -/

theorem tryRethrow_eq {α : Type} (body : Except JsError α) : tryRethrow body = body := by
  cases body <;> rfl

/-- The three `try` blocks of `handleReason` without the rethrowing wrappers. -/
theorem handleReason_unfold (w : World σ) (T : Tables) (evtHash : String) (reason : Reason)
    (ms : List Match) (store : σ) :
    handleReason w T evtHash reason ms store =
      ((if [withdrawSig, depositSig].contains reason.signature then
          handleWithdrawOrDeposit w
            (if reason.signature = withdrawSig then "withdraw" else "deposit")
            reason evtHash ms store
        else pure (ms, store)) >>= fun p1 =>
       (if reason.signature = priceUpdateSig then
          handlePriceUpdate w T reason evtHash p1.1 p1.2
        else pure (p1.1, p1.2)) >>= fun p2 =>
       (if poolSigs.contains reason.signature then
          handlePoolAction w T reason evtHash p2.1
        else pure p2.1) >>= fun ms3 => pure (ms3, p2.2)) := by
  unfold handleReason
  simp only [tryRethrow_eq, poolSigs]

theorem handleReason_withdraw (w : World σ) (T : Tables) (evtHash : String) (reason : Reason)
    (ms : List Match) (store : σ) (hsig : reason.signature = withdrawSig) :
    handleReason w T evtHash reason ms store =
      handleWithdrawOrDeposit w "withdraw" reason evtHash ms store := by
  rw [handleReason_unfold, hsig]
  have h1 : [withdrawSig, depositSig].contains withdrawSig = true := by decide
  have h2 : ¬ withdrawSig = priceUpdateSig := by decide
  have h3 : poolSigs.contains withdrawSig = false := by decide
  simp only [h1, h2, h3, if_true, if_false, Bool.false_eq_true, pure_bind]
  cases handleWithdrawOrDeposit w "withdraw" reason evtHash ms store <;> rfl

theorem handleReason_deposit (w : World σ) (T : Tables) (evtHash : String) (reason : Reason)
    (ms : List Match) (store : σ) (hsig : reason.signature = depositSig) :
    handleReason w T evtHash reason ms store =
      handleWithdrawOrDeposit w "deposit" reason evtHash ms store := by
  rw [handleReason_unfold, hsig]
  have h0 : ¬ depositSig = withdrawSig := by decide
  have h1 : [withdrawSig, depositSig].contains depositSig = true := by decide
  have h2 : ¬ depositSig = priceUpdateSig := by decide
  have h3 : poolSigs.contains depositSig = false := by decide
  simp only [h0, h1, h2, h3, if_true, if_false, Bool.false_eq_true, pure_bind]
  cases handleWithdrawOrDeposit w "deposit" reason evtHash ms store <;> rfl

theorem handleReason_priceUpdate (w : World σ) (T : Tables) (evtHash : String)
    (reason : Reason) (ms : List Match) (store : σ)
    (hsig : reason.signature = priceUpdateSig) :
    handleReason w T evtHash reason ms store =
      handlePriceUpdate w T reason evtHash ms store := by
  rw [handleReason_unfold, hsig]
  have h1 : [withdrawSig, depositSig].contains priceUpdateSig = false := by decide
  have h3 : poolSigs.contains priceUpdateSig = false := by decide
  simp only [h1, h3, if_true, if_false, Bool.false_eq_true, pure_bind]
  cases handlePriceUpdate w T reason evtHash ms store <;> rfl

theorem handleReason_pool (w : World σ) (T : Tables) (evtHash : String) (reason : Reason)
    (ms : List Match) (store : σ) (hsig : reason.signature ∈ poolSigs) :
    handleReason w T evtHash reason ms store =
      (handlePoolAction w T reason evtHash ms).map (fun ms => (ms, store)) := by
  rw [handleReason_unfold]
  have h3 : poolSigs.contains reason.signature = true := by
    simpa using hsig
  have h1 : [withdrawSig, depositSig].contains reason.signature = false := by
    simp only [poolSigs, List.mem_cons, List.mem_singleton, List.not_mem_nil, or_false] at hsig
    rcases hsig with h | h | h | h | h <;> rw [h] <;> decide
  have h2 : ¬ reason.signature = priceUpdateSig := by
    simp only [poolSigs, List.mem_cons, List.mem_singleton, List.not_mem_nil, or_false] at hsig
    rcases hsig with h | h | h | h | h <;> rw [h] <;> decide
  simp only [h1, h2, h3, if_true, if_false, Bool.false_eq_true, pure_bind]
  cases handlePoolAction w T reason evtHash ms <;> rfl

theorem handleReason_other (w : World σ) (T : Tables) (evtHash : String) (reason : Reason)
    (ms : List Match) (store : σ) (h1 : reason.signature ≠ withdrawSig)
    (h2 : reason.signature ≠ depositSig) (h3 : reason.signature ≠ priceUpdateSig)
    (h4 : reason.signature ∉ poolSigs) :
    handleReason w T evtHash reason ms store = Except.ok (ms, store) := by
  rw [handleReason_unfold]
  have hc1 : [withdrawSig, depositSig].contains reason.signature = false := by
    rw [← Bool.not_eq_true]
    intro hc
    have hm : reason.signature ∈ [withdrawSig, depositSig] := by simpa using hc
    simp only [List.mem_cons, List.mem_singleton, List.not_mem_nil, or_false] at hm
    rcases hm with hc | hc
    · exact h1 hc
    · exact h2 hc
  have hc2 : poolSigs.contains reason.signature = false := by
    rw [← Bool.not_eq_true]
    intro hc
    exact h4 (by simpa using hc)
  simp only [hc1, hc2, h3, if_false, Bool.false_eq_true, pure_bind]
  rfl

/-! ## The pool-action evaluator -/

theorem handlePoolAction_unmapped (w : World σ) (T : Tables) (reason : Reason)
    (evtHash : String) (ms : List Match) (reserve : Address)
    (hres : w.getAddress reason.args.head? = Except.ok reserve)
    (hkey : lookup reserve T.debtTokenToStrategies = none) :
    handlePoolAction w T reason evtHash ms = Except.ok ms := by
  simp [handlePoolAction, hres, hkey, bind, Except.bind, pure, Except.pure]

theorem handlePoolAction_mapped (w : World σ) (T : Tables) (reason : Reason)
    (evtHash : String) (ms : List Match) (reserve pool : Address)
    (strategies : List Address) (data : ReserveData)
    (hres : w.getAddress reason.args.head? = Except.ok reserve)
    (hkey : lookup reserve T.debtTokenToStrategies = some strategies)
    (hpool : w.getAddress (some reason.address) = Except.ok pool)
    (hdata : w.getReserveData pool reserve = Except.ok data)
    (hthr : ∀ s ∈ strategies, (lookup s T.strategyInterestThreshold).isSome = true) :
    handlePoolAction w T reason evtHash ms =
      Except.ok
        (if (strategies.filter (thresholdBelow T.strategyInterestThreshold data.f3)).length > 0
         then ms ++ [createMatch evtHash "borrowRate"
          (MatchData.borrowRate reserve data.f3
            (strategies.filter (thresholdBelow T.strategyInterestThreshold data.f3)))]
         else ms) := by
  simp only [handlePoolAction, hres, hkey, hpool, hdata, bind, Except.bind,
    filterBelowRate_eq_filter _ _ _ hthr]
  split_ifs <;> rfl

/-- C1: in `handlePoolAction`, for a reserve that is a key of
`debtTokenToStrategies` and a variable borrow rate `r` (field 3 of the reserve
data), the filter step does not throw and `affectedStrategies` is the list of
the mapped strategies, in table order, whose configured threshold is strictly
below `r`; a strategy whose threshold equals `r` is left out. With a reserve
mapped to two strategies of thresholds 3% and 5% and a live rate of 4% on the
same scale, only the 3% strategy is kept, and it is the list carried by the
emitted match. -/
theorem affectedStrategies_eq_filter (reserve : Address) (strategies : List Address)
    (r : BigNumber) (h : lookup reserve debtTokenToStrategies = some strategies) :
    filterBelowRate strategyInterestThreshold r strategies =
        Except.ok (strategies.filter (thresholdBelow strategyInterestThreshold r))
      ∧ (∀ s, s ∈ strategies.filter (thresholdBelow strategyInterestThreshold r) ↔
          s ∈ strategies ∧ ∃ t, lookup s strategyInterestThreshold = some t ∧ t < r)
      ∧ (∀ s, lookup s strategyInterestThreshold = some r →
          s ∉ strategies.filter (thresholdBelow strategyInterestThreshold r))
      ∧ filterBelowRate twoStrategyTables.strategyInterestThreshold (4 * 10 ^ 25)
          [strategyWstEthWeth, strategyWethUsdc] = Except.ok [strategyWstEthWeth]
      ∧ handlePoolAction (rateWorld (4 * 10 ^ 25)) twoStrategyTables borrowWethReason "0xe1" [] =
          Except.ok [
            ({ hash := "0xe1",
               metadata := { type := "borrowRate",
                             fields := (MatchData.borrowRate reserveWeth (4 * 10 ^ 25) [strategyWstEthWeth]) } } : Match)] := by
  refine ⟨filterBelowRate_eq_filter _ _ _ (debtToken_thresholds_defined h), ?_, ?_, ?_, ?_⟩
  · intro s
    rw [List.mem_filter, thresholdBelow_iff]
  · intro s hs hmem
    have hb := (List.mem_filter.mp hmem).2
    rw [thresholdBelow_iff] at hb
    obtain ⟨t, ht, hlt⟩ := hb
    rw [hs] at ht
    have hrt : r = t := Option.some.inj ht
    rw [hrt] at hlt
    exact lt_irrefl t hlt
  · decide
  · decide

theorem affectedStrategies_eq_filter_witness :
    lookup reserveWeth debtTokenToStrategies = some [strategyWstEthWeth] ∧
      filterBelowRate strategyInterestThreshold (4 * 10 ^ 27) [strategyWstEthWeth] =
        Except.ok [strategyWstEthWeth] :=
  ⟨by decide, (affectedStrategies_eq_filter reserveWeth [strategyWstEthWeth] (4 * 10 ^ 27)
    (by decide)).1.trans (by decide)⟩

/-- C2 (counterexample): a case other than "mapped reserve with a threshold
below the live rate" in which an error is raised. For the mapped WETH reserve
the pool read reverts, so there is no live rate, and `handlePoolAction` rejects
with the error of the read; for a reason without `args[0]` the address
normalisation rejects and so does `handlePoolAction`. -/
theorem handlePoolAction_raises_on_failed_read :
    lookup reserveWeth debtTokenToStrategies = some [strategyWstEthWeth]
      ∧ handlePoolAction poolDownWorld tables borrowWethReason "0xe1" [] =
          Except.error (JsError.callException "call revert exception")
      ∧ handlePoolAction calmWorld tables
          { signature := poolBorrowSig, address := borrowWethReason.address, args := [] }
          "0xe1" [] =
          Except.error (JsError.invalidArgument "invalid address") := by
  refine ⟨by decide, by decide, by decide⟩

/-- C2 (amended): provided the reserve address normalises and, for a mapped
reserve, the pool address normalises and the pool read resolves,
`handlePoolAction` appends exactly one match, with `hash` the event hash,
`type` equal to `borrowRate` and the fields `reserve`, `currBorrowRate` and
`affectedStrategies`, when the reserve is a key of `debtTokenToStrategies` and
some mapped strategy has its threshold strictly below the live rate, and leaves
the list unchanged when the reserve is a key and no mapped strategy has; for a
reserve that is not a key it returns the list unchanged without any read and
without error. When a normalisation or the pool read rejects, `handlePoolAction`
rejects with that error and appends nothing. The handler calls it, with the
hash of the event, for the five pool signatures. -/
theorem handlePoolAction_match_iff (w : World σ) (reason : Reason) (evtHash : String)
    (ms : List Match) (reserve : Address)
    (hres : w.getAddress reason.args.head? = Except.ok reserve) :
    (lookup reserve debtTokenToStrategies = none →
        handlePoolAction w tables reason evtHash ms = Except.ok ms)
      ∧ (∀ (strategies : List Address) (pool : Address) (data : ReserveData),
          lookup reserve debtTokenToStrategies = some strategies →
          w.getAddress (some reason.address) = Except.ok pool →
          w.getReserveData pool reserve = Except.ok data →
          ((∃ s ∈ strategies, ∃ t, lookup s strategyInterestThreshold = some t ∧ t < data.f3) →
            handlePoolAction w tables reason evtHash ms =
              Except.ok (ms ++ [
                ({ hash := evtHash,
                   metadata := { type := "borrowRate",
                                 fields := (MatchData.borrowRate reserve data.f3 (strategies.filter (thresholdBelow strategyInterestThreshold data.f3))) } } : Match)]))
          ∧ ((¬ ∃ s ∈ strategies, ∃ t, lookup s strategyInterestThreshold = some t ∧ t < data.f3) →
            handlePoolAction w tables reason evtHash ms = Except.ok ms))
      ∧ (∀ store : σ, reason.signature ∈ poolSigs →
          handleReason w tables evtHash reason ms store =
            (handlePoolAction w tables reason evtHash ms).map (fun ms => (ms, store)))
      ∧ (∀ (strategies : List Address) (e : JsError),
          lookup reserve debtTokenToStrategies = some strategies →
          w.getAddress (some reason.address) = Except.error e →
          handlePoolAction w tables reason evtHash ms = Except.error e)
      ∧ (∀ (strategies : List Address) (pool : Address) (e : JsError),
          lookup reserve debtTokenToStrategies = some strategies →
          w.getAddress (some reason.address) = Except.ok pool →
          w.getReserveData pool reserve = Except.error e →
          handlePoolAction w tables reason evtHash ms = Except.error e)
      ∧ (∀ (other : Reason) (e : JsError),
          w.getAddress other.args.head? = Except.error e →
          handlePoolAction w tables other evtHash ms = Except.error e) := by
  refine ⟨fun hkey => handlePoolAction_unmapped w tables reason evtHash ms reserve hres hkey, ?_,
    fun store hsig => handleReason_pool w tables evtHash reason ms store hsig, ?_, ?_, ?_⟩
  rotate_left
  · intro strategies e hkey hpool
    simp only [handlePoolAction, hres, tables, hkey, hpool, bind, Except.bind]
  · intro strategies pool e hkey hpool hdata
    simp only [handlePoolAction, hres, tables, hkey, hpool, hdata, bind, Except.bind]
  · intro other e hother
    simp only [handlePoolAction, hother, bind, Except.bind]
  intro strategies pool data hkey hpool hdata
  have hmain := handlePoolAction_mapped w tables reason evtHash ms reserve pool strategies data
    hres hkey hpool hdata (debtToken_thresholds_defined hkey)
  have hlen : (strategies.filter (thresholdBelow strategyInterestThreshold data.f3)).length > 0 ↔
      ∃ s ∈ strategies, ∃ t, lookup s strategyInterestThreshold = some t ∧ t < data.f3 := by
    rw [gt_iff_lt, List.length_pos_iff_exists_mem]
    constructor
    · rintro ⟨s, hs⟩
      rw [List.mem_filter, thresholdBelow_iff] at hs
      exact ⟨s, hs.1, hs.2⟩
    · rintro ⟨s, hs, ht⟩
      exact ⟨s, List.mem_filter.mpr ⟨hs, (thresholdBelow_iff _ _ _).mpr ht⟩⟩
  constructor
  · intro hex
    rw [hmain]
    simp only [tables]
    rw [if_pos (hlen.mpr hex)]
    rfl
  · intro hnex
    rw [hmain]
    simp only [tables]
    rw [if_neg (fun hc => hnex (hlen.mp hc))]

theorem handlePoolAction_match_iff_witness :
    handlePoolAction (rateWorld (4 * 10 ^ 27)) tables borrowWethReason "0xe1" [] =
      Except.ok [
        ({ hash := "0xe1",
           metadata := { type := "borrowRate",
                         fields := (MatchData.borrowRate reserveWeth (4 * 10 ^ 27) [strategyWstEthWeth]) } } : Match)] :=
  ((handlePoolAction_match_iff (rateWorld (4 * 10 ^ 27)) borrowWethReason "0xe1" [] reserveWeth
    rfl).2.1 [strategyWstEthWeth] borrowWethReason.address
      { zeroReserveData with f3 := 4 * 10 ^ 27 } (by decide) rfl rfl).1
    ⟨strategyWstEthWeth, by decide, 3 * 10 ^ 27, by decide, by decide⟩

/-! ## The price-update evaluator -/

theorem rebalanceLoop_eq_filter (w : World σ) (need : Address → Bool)
    (strategies : List Address)
    (hneed : ∀ s ∈ strategies, w.rebalanceNeeded s = Except.ok (need s))
    (heps : ∀ s ∈ strategies, ∃ e, w.equityPerShare s = Except.ok e)
    (hupd : ∀ (st : σ) (s : Address) (e : BigNumber), ∃ st', w.updateEPS st s e = Except.ok st') :
    ∀ (acc : List Address) (store : σ), ∃ store',
      rebalanceLoop w strategies acc store = Except.ok (acc ++ strategies.filter need, store') := by
  induction strategies with
  | nil => intro acc store; exact ⟨store, by simp [rebalanceLoop, pure, Except.pure]⟩
  | cons s rest ih =>
    intro acc store
    obtain ⟨e, he⟩ := heps s (List.mem_cons_self s rest)
    obtain ⟨st1, hst1⟩ := hupd store s e
    have hn := hneed s (List.mem_cons_self s rest)
    obtain ⟨st2, hst2⟩ := ih (fun x hx => hneed x (List.mem_cons_of_mem s hx))
      (fun x hx => heps x (List.mem_cons_of_mem s hx))
      (if need s then acc ++ [s] else acc) st1
    refine ⟨st2, ?_⟩
    simp only [rebalanceLoop, he, hst1, hn, bind, Except.bind]
    rw [hst2]
    cases hns : need s <;> simp [List.filter_cons, hns]

theorem handlePriceUpdate_eq (w : World σ) (T : Tables) (reason : Reason) (evtHash : String)
    (ms : List Match) (store store1 store2 : σ) (oracleAddress : Address)
    (latestAnswer : JsValue) (strategiesToRebalance : List Address)
    (oracleState : OracleState)
    (haddr : w.getAddress (some reason.address) = Except.ok oracleAddress)
    (hanswer : w.latestAnswer oracleAddress = Except.ok latestAnswer)
    (hloop : rebalanceLoop w (mappedStrategies T oracleAddress) [] store =
      Except.ok (strategiesToRebalance, store1))
    (hstate : w.isOracleOut store1 oracleAddress = Except.ok (oracleState, store2)) :
    handlePriceUpdate w T reason evtHash ms store =
      Except.ok
        (if strategiesToRebalance ≠ [] ∨ oracleState.isOut = true ∨
            strictEqualsNumber latestAnswer 1 = true
         then ms ++ [createMatch evtHash "priceUpdate"
           (MatchData.priceUpdate strategiesToRebalance oracleState
             (strictEqualsNumber latestAnswer 1))]
         else ms, store2) := by
  unfold mappedStrategies at hloop
  simp only [handlePriceUpdate, haddr, hanswer, hloop, hstate, bind, Except.bind]
  by_cases h1 : strategiesToRebalance = []
  · cases h2 : oracleState.isOut <;> cases h3 : strictEqualsNumber latestAnswer 1 <;>
      simp [h1, pure, Except.pure]
  · have hpos : 0 < strategiesToRebalance.length := List.length_pos.mpr h1
    simp [h1, hpos, pure, Except.pure]

/-- C3: `handlePriceUpdate` appends exactly one match, of type `priceUpdate`,
when `strategiesToRebalance` is not empty or `oracleState.isOut` is true or
`isSequencerOut` is true, and leaves the list unchanged when all three are
false; the emitted match carries all three of `strategiesToRebalance`,
`oracleState` and `isSequencerOut`, whichever of them triggered it. -/
theorem handlePriceUpdate_match_iff (w : World σ) (reason : Reason) (evtHash : String)
    (ms : List Match) (store store1 store2 : σ) (oracleAddress : Address)
    (latestAnswer : JsValue) (strategiesToRebalance : List Address)
    (oracleState : OracleState)
    (haddr : w.getAddress (some reason.address) = Except.ok oracleAddress)
    (hanswer : w.latestAnswer oracleAddress = Except.ok latestAnswer)
    (hloop : rebalanceLoop w (mappedStrategies tables oracleAddress) [] store =
      Except.ok (strategiesToRebalance, store1))
    (hstate : w.isOracleOut store1 oracleAddress = Except.ok (oracleState, store2)) :
    ((strategiesToRebalance ≠ [] ∨ oracleState.isOut = true ∨
        strictEqualsNumber latestAnswer 1 = true) →
      handlePriceUpdate w tables reason evtHash ms store =
        Except.ok (ms ++ [
          ({ hash := evtHash,
             metadata := { type := "priceUpdate",
                           fields := (MatchData.priceUpdate strategiesToRebalance oracleState (strictEqualsNumber latestAnswer 1)) } } : Match)], store2))
      ∧ ((strategiesToRebalance = [] ∧ oracleState.isOut = false ∧
          strictEqualsNumber latestAnswer 1 = false) →
        handlePriceUpdate w tables reason evtHash ms store = Except.ok (ms, store2))
      ∧ ((∃ m st, handlePriceUpdate w tables reason evtHash ms store =
            Except.ok (ms ++ [m], st)) ↔
          (strategiesToRebalance ≠ [] ∨ oracleState.isOut = true ∨
            strictEqualsNumber latestAnswer 1 = true)) := by
  have hmain := handlePriceUpdate_eq w tables reason evtHash ms store store1 store2
    oracleAddress latestAnswer strategiesToRebalance oracleState haddr hanswer hloop hstate
  refine ⟨fun hc => ?_, fun hc => ?_, ?_, fun hc => ?_⟩
  · rw [hmain, if_pos hc]
    rfl
  · rw [hmain, if_neg]
    rintro (h | h | h)
    · exact h hc.1
    · rw [hc.2.1] at h; exact Bool.false_ne_true h
    · rw [hc.2.2] at h; exact Bool.false_ne_true h
  · rintro ⟨m, st, hm⟩
    by_contra hn
    rw [hmain, if_neg hn] at hm
    have hlen := congrArg (fun p => p.1.length) (Except.ok.inj hm)
    simp at hlen
  · exact ⟨_, store2, by rw [hmain, if_pos hc]⟩

theorem handlePriceUpdate_match_iff_witness :
    handlePriceUpdate oracleOutWorld tables ethUsdReason "0xe1" [] 0 =
      Except.ok ([] ++ [
        ({ hash := "0xe1",
           metadata := { type := "priceUpdate",
                         fields := (MatchData.priceUpdate [] { isOut := true, details := [] } false) } } : Match)], 2) :=
  (handlePriceUpdate_match_iff oracleOutWorld ethUsdReason "0xe1" [] 0 2 2 oracleEthUsd
    (JsValue.bigNumber 250000000000) [] { isOut := true, details := [] }
    rfl rfl (by decide) rfl).1 (Or.inr (Or.inl rfl))

/-- C4: in `handlePriceUpdate`, for every oracle address and every assignment
`need` of `rebalanceNeeded()` answers, `strategiesToRebalance` is the list, in
table order, of the strategies mapped to the oracle in `oracleToStrategies`
whose read returns true, and an emitted match carries that list; for the
ETH-USD oracle, which has two mapped strategies, when exactly one of them
reports true the emitted match holds exactly that one address. -/
theorem strategiesToRebalance_eq_filter (w : World σ) (need : Address → Bool)
    (hneed : ∀ s, w.rebalanceNeeded s = Except.ok (need s))
    (heps : ∀ s, ∃ e, w.equityPerShare s = Except.ok e)
    (hupd : ∀ (st : σ) (s : Address) (e : BigNumber), ∃ st', w.updateEPS st s e = Except.ok st')
    (hout : ∀ (st : σ) (o : Address), ∃ os st', w.isOracleOut st o = Except.ok (os, st')) :
    (∀ (oracleAddress : Address) (store : σ), ∃ store',
        rebalanceLoop w (mappedStrategies tables oracleAddress) [] store =
          Except.ok ((mappedStrategies tables oracleAddress).filter need, store'))
      ∧ (∀ (reason : Reason) (evtHash : String) (ms : List Match) (store : σ)
          (oracleAddress : Address) (latestAnswer : JsValue),
          w.getAddress (some reason.address) = Except.ok oracleAddress →
          w.latestAnswer oracleAddress = Except.ok latestAnswer →
          ∃ os seq st,
            ((mappedStrategies tables oracleAddress).filter need = [] ∧
              handlePriceUpdate w tables reason evtHash ms store = Except.ok (ms, st)) ∨
            handlePriceUpdate w tables reason evtHash ms store =
              Except.ok (ms ++ [
                ({ hash := evtHash,
                   metadata := { type := "priceUpdate",
                                 fields := (MatchData.priceUpdate ((mappedStrategies tables oracleAddress).filter need) os seq) } } : Match)], st))
      ∧ mappedStrategies tables oracleEthUsd = [strategyWstEthWeth, strategyWethUsdc]
      ∧ (∀ (reason : Reason) (evtHash : String) (ms : List Match) (store : σ)
          (latestAnswer : JsValue),
          w.getAddress (some reason.address) = Except.ok oracleEthUsd →
          w.latestAnswer oracleEthUsd = Except.ok latestAnswer →
          (need strategyWstEthWeth = true → need strategyWethUsdc = false →
            ∃ os seq st, handlePriceUpdate w tables reason evtHash ms store =
              Except.ok (ms ++ [
                ({ hash := evtHash,
                   metadata := { type := "priceUpdate",
                                 fields := (MatchData.priceUpdate [strategyWstEthWeth] os seq) } } : Match)], st))
          ∧ (need strategyWstEthWeth = false → need strategyWethUsdc = true →
            ∃ os seq st, handlePriceUpdate w tables reason evtHash ms store =
              Except.ok (ms ++ [
                ({ hash := evtHash,
                   metadata := { type := "priceUpdate",
                                 fields := (MatchData.priceUpdate [strategyWethUsdc] os seq) } } : Match)], st))) := by
  have hloop : ∀ (oracleAddress : Address) (store : σ), ∃ store',
      rebalanceLoop w (mappedStrategies tables oracleAddress) [] store =
        Except.ok ((mappedStrategies tables oracleAddress).filter need, store') := by
    intro oracleAddress store
    obtain ⟨st, hst⟩ := rebalanceLoop_eq_filter w need (mappedStrategies tables oracleAddress)
      (fun s _ => hneed s) (fun s _ => heps s) hupd [] store
    exact ⟨st, by simpa using hst⟩
  have hgen : ∀ (reason : Reason) (evtHash : String) (ms : List Match) (store : σ)
      (oracleAddress : Address) (latestAnswer : JsValue),
      w.getAddress (some reason.address) = Except.ok oracleAddress →
      w.latestAnswer oracleAddress = Except.ok latestAnswer →
      ∃ os seq st,
        handlePriceUpdate w tables reason evtHash ms store =
          Except.ok
            (if (mappedStrategies tables oracleAddress).filter need ≠ [] ∨ os.isOut = true ∨
                seq = true
             then ms ++ [
               ({ hash := evtHash,
                  metadata := { type := "priceUpdate",
                                fields := (MatchData.priceUpdate ((mappedStrategies tables oracleAddress).filter need) os seq) } } : Match)]
             else ms, st) := by
    intro reason evtHash ms store oracleAddress latestAnswer haddr hanswer
    obtain ⟨st1, hst1⟩ := hloop oracleAddress store
    obtain ⟨os, st2, hos⟩ := hout st1 oracleAddress
    exact ⟨os, strictEqualsNumber latestAnswer 1, st2,
      handlePriceUpdate_eq w tables reason evtHash ms store st1 st2 oracleAddress latestAnswer
        _ os haddr hanswer hst1 hos⟩
  have hpair : mappedStrategies tables oracleEthUsd = [strategyWstEthWeth, strategyWethUsdc] := by
    decide
  refine ⟨hloop, ?_, hpair, ?_⟩
  · intro reason evtHash ms store oracleAddress latestAnswer haddr hanswer
    obtain ⟨os, seq, st, h⟩ := hgen reason evtHash ms store oracleAddress latestAnswer haddr hanswer
    refine ⟨os, seq, st, ?_⟩
    by_cases hc : (mappedStrategies tables oracleAddress).filter need ≠ [] ∨ os.isOut = true ∨
        seq = true
    · right
      rw [h, if_pos hc]
    · left
      refine ⟨?_, by rw [h, if_neg hc]⟩
      by_contra hne
      exact hc (Or.inl hne)
  · intro reason evtHash ms store latestAnswer haddr hanswer
    obtain ⟨os, seq, st, h⟩ := hgen reason evtHash ms store oracleEthUsd latestAnswer haddr hanswer
    rw [hpair] at h
    constructor
    · intro h1 h2
      refine ⟨os, seq, st, ?_⟩
      rw [h]
      simp [List.filter_cons, h1, h2]
    · intro h1 h2
      refine ⟨os, seq, st, ?_⟩
      rw [h]
      simp [List.filter_cons, h1, h2]

theorem strategiesToRebalance_eq_filter_witness :
    ∃ os seq st,
      handlePriceUpdate (rebalanceWorld [strategyWethUsdc]) tables ethUsdReason "0xe1" [] 0 =
        Except.ok ([] ++ [
          ({ hash := "0xe1",
             metadata := { type := "priceUpdate",
                           fields := (MatchData.priceUpdate [strategyWethUsdc] os seq) } } : Match)], st) :=
  ((strategiesToRebalance_eq_filter (rebalanceWorld [strategyWethUsdc])
      (fun s => [strategyWethUsdc].contains s) (fun _ => rfl) (fun _ => ⟨10, rfl⟩)
      (fun st _ _ => ⟨st + 1, rfl⟩) (fun st _ => ⟨_, st, rfl⟩)).2.2.2
    ethUsdReason "0xe1" [] 0 (JsValue.bigNumber 250000000000) rfl rfl).2
    (by decide) (by decide)

/-- The run behind the witness of C4, evaluated: both strategies of the ETH-USD
oracle are visited (two store updates) and only the one that reports true is
listed. -/
theorem ethUsd_one_of_two_evaluated :
    handlePriceUpdate (rebalanceWorld [strategyWethUsdc]) tables ethUsdReason "0xe1" [] 0 =
      Except.ok ([
        ({ hash := "0xe1",
           metadata := { type := "priceUpdate",
                         fields := (MatchData.priceUpdate [strategyWethUsdc] { isOut := false, details := [] } false) } } : Match)],
        2) := by
  decide

/-- C6 (the code at the failing input): `latestAnswer === 1` is false for every
big-number object, the one of value 1 included; when the oracle answers the
big-number 1 and nothing else is adverse no match is emitted, and when the
oracle is also out the emitted match carries `isSequencerOut = false`. Only a
native number 1 makes the comparison true. -/
theorem isSequencerOut_false_on_bigNumber :
    (∀ n : BigNumber, strictEqualsNumber (JsValue.bigNumber n) 1 = false)
      ∧ strictEqualsNumber (JsValue.number 1) 1 = true
      ∧ handlePriceUpdate (answerWorld (JsValue.bigNumber 1)) tables ethUsdReason "0xe1" [] 0 =
          Except.ok ([], 2)
      ∧ handlePriceUpdate sequencerDownWorld tables ethUsdReason "0xe1" [] 0 =
          Except.ok ([
            ({ hash := "0xe1",
               metadata := { type := "priceUpdate",
                             fields := (MatchData.priceUpdate [] { isOut := true, details := [] } false) } } : Match)], 2) := by
  refine ⟨fun _ => rfl, by decide, by decide, by decide⟩

/-! ## The withdraw/deposit evaluator -/

theorem handleWithdrawOrDeposit_eq (w : World σ) (reasonType : String) (reason : Reason)
    (evtHash : String) (ms : List Match) (store store' : σ) (strategy : Address)
    (riskState : RiskState) (exposureState : ExposureState) (epsState : EPSState)
    (haddr : w.getAddress (some reason.address) = Except.ok strategy)
    (hrisk : w.isStrategyAtRisk strategy healthFactorThreshold = Except.ok riskState)
    (hexp : w.isStrategyOverexposed strategy = Except.ok exposureState)
    (heps : w.hasEPSDecreased store strategy = Except.ok (epsState, store')) :
    handleWithdrawOrDeposit w reasonType reason evtHash ms store =
      Except.ok (pushStates reasonType evtHash ms riskState exposureState epsState, store') := by
  simp only [handleWithdrawOrDeposit, haddr, hrisk, hexp, heps, bind, Except.bind]
  rfl

/-- C5: for every strategy and every triple of check results,
`handleWithdrawOrDeposit` appends between zero and three matches: one carrying
`riskState` iff `riskState.isAtRisk`, one carrying `exposureState` iff
`exposureState.isOverExposed`, one carrying `EPSState` iff
`EPSState.hasEPSDecreased`, each decided on its own, in that order, each with
the event hash; the handler passes type `withdraw` for the strategy Withdraw
signature and `deposit` for the Deposit signature. -/
theorem handleWithdrawOrDeposit_matches (w : World σ) (reason : Reason)
    (evtHash : String) (ms : List Match) (store store' : σ) (strategy : Address)
    (riskState : RiskState) (exposureState : ExposureState) (epsState : EPSState)
    (haddr : w.getAddress (some reason.address) = Except.ok strategy)
    (hrisk : w.isStrategyAtRisk strategy healthFactorThreshold = Except.ok riskState)
    (hexp : w.isStrategyOverexposed strategy = Except.ok exposureState)
    (heps : w.hasEPSDecreased store strategy = Except.ok (epsState, store')) :
    (∀ reasonType : String,
        handleWithdrawOrDeposit w reasonType reason evtHash ms store =
          Except.ok
            (ms
              ++ (if riskState.isAtRisk then
                  [
                    ({ hash := evtHash,
                       metadata := { type := reasonType,
                                     fields := (MatchData.riskState riskState) } } : Match)] else [])
              ++ (if exposureState.isOverExposed then
                  [
                    ({ hash := evtHash,
                       metadata := { type := reasonType,
                                     fields := (MatchData.exposureState exposureState) } } : Match)]
                  else [])
              ++ (if epsState.hasEPSDecreased then
                  [
                    ({ hash := evtHash,
                       metadata := { type := reasonType,
                                     fields := (MatchData.EPSState epsState) } } : Match)] else []),
              store'))
      ∧ (reason.signature = withdrawSig →
          handleReason w tables evtHash reason ms store =
            Except.ok (ms ++ expectedStateMatches "withdraw" evtHash riskState exposureState
              epsState, store'))
      ∧ (reason.signature = depositSig →
          handleReason w tables evtHash reason ms store =
            Except.ok (ms ++ expectedStateMatches "deposit" evtHash riskState exposureState
              epsState, store'))
      ∧ (∀ reasonType : String,
          (expectedStateMatches reasonType evtHash riskState exposureState epsState).length ≤ 3
          ∧ ∀ m ∈ expectedStateMatches reasonType evtHash riskState exposureState epsState,
              m.hash = evtHash ∧ m.metadata.type = reasonType) := by
  have hpush : ∀ reasonType : String,
      pushStates reasonType evtHash ms riskState exposureState epsState =
        ms ++ expectedStateMatches reasonType evtHash riskState exposureState epsState := by
    intro reasonType
    unfold pushStates expectedStateMatches
    cases riskState.isAtRisk <;> cases exposureState.isOverExposed <;>
      cases epsState.hasEPSDecreased <;> simp [createMatch]
  have hmain : ∀ reasonType : String,
      handleWithdrawOrDeposit w reasonType reason evtHash ms store =
        Except.ok (ms ++ expectedStateMatches reasonType evtHash riskState exposureState
          epsState, store') := by
    intro reasonType
    rw [handleWithdrawOrDeposit_eq w reasonType reason evtHash ms store store' strategy
      riskState exposureState epsState haddr hrisk hexp heps, hpush]
  refine ⟨fun reasonType => ?_, fun hsig => ?_, fun hsig => ?_, fun reasonType => ⟨?_, ?_⟩⟩
  · rw [hmain reasonType, expectedStateMatches]
    simp only [List.append_assoc]
  · rw [handleReason_withdraw w tables evtHash reason ms store hsig, hmain]
  · rw [handleReason_deposit w tables evtHash reason ms store hsig, hmain]
  · unfold expectedStateMatches
    cases riskState.isAtRisk <;> cases exposureState.isOverExposed <;>
      cases epsState.hasEPSDecreased <;> simp
  · intro m hm
    unfold expectedStateMatches at hm
    simp only [List.mem_append] at hm
    rcases hm with (hm | hm) | hm <;>
      · split_ifs at hm
        · rw [List.mem_singleton.mp hm]
          exact ⟨rfl, rfl⟩
        · exact absurd hm (List.not_mem_nil m)

theorem handleWithdrawOrDeposit_matches_witness :
    handleReason adverseWorld tables "0xe1" withdrawReason [] 0 =
      Except.ok ([] ++ expectedStateMatches "withdraw" "0xe1"
        { isAtRisk := true, healthFactor := 105000000 }
        { isOverExposed := false, current := 100, min := 90 }
        { hasEPSDecreased := true, previous := some 10, current := 9 }, 0) :=
  (handleWithdrawOrDeposit_matches adverseWorld withdrawReason "0xe1" [] 0 0 strategyWstEthWeth
    { isAtRisk := true, healthFactor := 105000000 }
    { isOverExposed := false, current := 100, min := 90 }
    { hasEPSDecreased := true, previous := some 10, current := 9 }
    rfl rfl rfl rfl).2.1 rfl

/-- The run behind the witness of C5, evaluated: two matches, risk first. -/
theorem adverse_withdraw_evaluated :
    handler adverseWorld
        { request := { body := { events := [{ hash := "0xe1", matchReasons := [withdrawReason] }] } } }
        0 =
      Except.ok ({ matchList :=
        [
          ({ hash := "0xe1",
             metadata := { type := "withdraw",
                           fields := (MatchData.riskState { isAtRisk := true, healthFactor := 105000000 }) } } : Match),
          ({ hash := "0xe1",
             metadata := { type := "withdraw",
                           fields := (MatchData.EPSState { hasEPSDecreased := true, previous := some 10, current := 9 }) } } : Match) ] },
        0) := by
  decide

/-! ## Error propagation through the dispatcher -/

theorem handleReason_error_iff (w : World σ) (T : Tables) (evtHash : String) (reason : Reason)
    (ms : List Match) (store : σ) (e : JsError) :
    handleReason w T evtHash reason ms store = Except.error e ↔
      evaluatorFails w T evtHash reason ms store e := by
  unfold evaluatorFails
  by_cases h1 : reason.signature = withdrawSig
  · rw [handleReason_withdraw w T evtHash reason ms store h1]
    have n2 : ¬ withdrawSig = depositSig := by decide
    have n3 : ¬ withdrawSig = priceUpdateSig := by decide
    have n4 : ¬ withdrawSig ∈ poolSigs := by decide
    simp [h1, n2, n3, n4]
  by_cases h2 : reason.signature = depositSig
  · rw [handleReason_deposit w T evtHash reason ms store h2]
    have n1 : ¬ depositSig = withdrawSig := by decide
    have n3 : ¬ depositSig = priceUpdateSig := by decide
    have n4 : ¬ depositSig ∈ poolSigs := by decide
    simp [h2, n1, n3, n4]
  by_cases h3 : reason.signature = priceUpdateSig
  · rw [handleReason_priceUpdate w T evtHash reason ms store h3]
    have n1 : ¬ priceUpdateSig = withdrawSig := by decide
    have n2 : ¬ priceUpdateSig = depositSig := by decide
    have n4 : ¬ priceUpdateSig ∈ poolSigs := by decide
    simp [h3, n1, n2, n4]
  by_cases h4 : reason.signature ∈ poolSigs
  · rw [handleReason_pool w T evtHash reason ms store h4]
    simp only [h1, h2, h3, h4, false_and, true_and, false_or]
    cases handlePoolAction w T reason evtHash ms <;> simp [Except.map]
  · rw [handleReason_other w T evtHash reason ms store h1 h2 h3 h4]
    simp [h1, h2, h3, h4]

theorem handleReasons_fail (w : World σ) (T : Tables) (evtHash : String)
    (rs1 : List Reason) (r : Reason) (rs2 : List Reason) (e : JsError) :
    ∀ (ms : List Match) (store : σ) (ms2 : List Match) (st2 : σ),
      handleReasons w T evtHash rs1 ms store = Except.ok (ms2, st2) →
      handleReason w T evtHash r ms2 st2 = Except.error e →
      handleReasons w T evtHash (rs1 ++ r :: rs2) ms store = Except.error e := by
  induction rs1 with
  | nil =>
    intro ms store ms2 st2 hpre hr
    simp only [handleReasons, pure, Except.pure] at hpre
    obtain ⟨rfl, rfl⟩ := Prod.mk.inj (Except.ok.inj hpre)
    simp only [List.nil_append, handleReasons, hr, bind, Except.bind]
  | cons r1 rest ih =>
    intro ms store ms2 st2 hpre hr
    simp only [List.cons_append, handleReasons, bind, Except.bind] at hpre ⊢
    cases h1 : handleReason w T evtHash r1 ms store with
    | error e1 => rw [h1] at hpre; exact absurd hpre (by simp)
    | ok p =>
      rw [h1] at hpre
      simp only at hpre ⊢
      exact ih p.1 p.2 ms2 st2 hpre hr

theorem handleEvents_fail (w : World σ) (T : Tables) (pre : List Event) (evt : Event)
    (post : List Event) (e : JsError) :
    ∀ (ms : List Match) (store : σ) (ms1 : List Match) (st1 : σ),
      handleEvents w T pre ms store = Except.ok (ms1, st1) →
      handleReasons w T evt.hash evt.matchReasons ms1 st1 = Except.error e →
      handleEvents w T (pre ++ evt :: post) ms store = Except.error e := by
  induction pre with
  | nil =>
    intro ms store ms1 st1 hpre hr
    simp only [handleEvents, pure, Except.pure] at hpre
    obtain ⟨rfl, rfl⟩ := Prod.mk.inj (Except.ok.inj hpre)
    simp only [List.nil_append, handleEvents, hr, bind, Except.bind]
  | cons e1 rest ih =>
    intro ms store ms1 st1 hpre hr
    simp only [List.cons_append, handleEvents, bind, Except.bind] at hpre ⊢
    cases h1 : handleReasons w T e1.hash e1.matchReasons ms store with
    | error e1 => rw [h1] at hpre; exact absurd hpre (by simp)
    | ok p =>
      rw [h1] at hpre
      simp only at hpre ⊢
      exact ih p.1 p.2 ms1 st1 hpre hr

/-- Either every reason is handled, or there is a first reason whose handling
rejects, and the loop rejects with its error. -/
theorem handleReasons_ok_or_first_failure (w : World σ) (T : Tables) (evtHash : String)
    (rs : List Reason) :
    ∀ (ms : List Match) (store : σ),
      (∃ ms' st', handleReasons w T evtHash rs ms store = Except.ok (ms', st')) ∨
      (∃ rs1 r rs2 ms2 st2 e, rs = rs1 ++ r :: rs2 ∧
        handleReasons w T evtHash rs1 ms store = Except.ok (ms2, st2) ∧
        handleReason w T evtHash r ms2 st2 = Except.error e ∧
        handleReasons w T evtHash rs ms store = Except.error e) := by
  induction rs with
  | nil => intro ms store; exact Or.inl ⟨ms, store, rfl⟩
  | cons r rest ih =>
    intro ms store
    cases h1 : handleReason w T evtHash r ms store with
    | error e =>
      right
      refine ⟨[], r, rest, ms, store, e, rfl, rfl, h1, ?_⟩
      simp only [handleReasons, h1, bind, Except.bind]
    | ok p =>
      have hstep : handleReasons w T evtHash (r :: rest) ms store =
          handleReasons w T evtHash rest p.1 p.2 := by
        simp only [handleReasons, h1, bind, Except.bind]
      rcases ih p.1 p.2 with ⟨ms', st', hok⟩ | ⟨rs1, r', rs2, ms2, st2, e, hsplit, hpre, hr, herr⟩
      · exact Or.inl ⟨ms', st', by rw [hstep, hok]⟩
      · right
        refine ⟨r :: rs1, r', rs2, ms2, st2, e, by rw [hsplit]; rfl, ?_, hr, by rw [hstep, herr]⟩
        simp only [handleReasons, h1, bind, Except.bind]
        exact hpre

theorem handleEvents_ok_or_first_failure (w : World σ) (T : Tables) (events : List Event) :
    ∀ (ms : List Match) (store : σ),
      (∃ ms' st', handleEvents w T events ms store = Except.ok (ms', st')) ∨
      (∃ pre evt post rs1 r rs2 ms1 st1 ms2 st2 e, events = pre ++ evt :: post ∧
        evt.matchReasons = rs1 ++ r :: rs2 ∧
        handleEvents w T pre ms store = Except.ok (ms1, st1) ∧
        handleReasons w T evt.hash rs1 ms1 st1 = Except.ok (ms2, st2) ∧
        handleReason w T evt.hash r ms2 st2 = Except.error e ∧
        handleEvents w T events ms store = Except.error e) := by
  induction events with
  | nil => intro ms store; exact Or.inl ⟨ms, store, rfl⟩
  | cons evt rest ih =>
    intro ms store
    rcases handleReasons_ok_or_first_failure w T evt.hash evt.matchReasons ms store with
      ⟨ms1, st1, hok⟩ | ⟨rs1, r, rs2, ms2, st2, e, hsplit, hpre, hr, herr⟩
    · have hstep : handleEvents w T (evt :: rest) ms store = handleEvents w T rest ms1 st1 := by
        simp only [handleEvents, hok, bind, Except.bind]
      rcases ih ms1 st1 with ⟨ms', st', hok'⟩ |
        ⟨pre, evt', post, rs1, r, rs2, msa, sta, msb, stb, e, hsplit, hreasons, hpre, hrs, hr, herr⟩
      · exact Or.inl ⟨ms', st', by rw [hstep, hok']⟩
      · right
        refine ⟨evt :: pre, evt', post, rs1, r, rs2, msa, sta, msb, stb, e, by rw [hsplit]; rfl,
          hreasons, ?_, hrs, hr, by rw [hstep, herr]⟩
        simp only [handleEvents, hok, bind, Except.bind]
        exact hpre
    · right
      refine ⟨[], evt, rest, rs1, r, rs2, ms, store, ms2, st2, e, rfl, hsplit, rfl, hpre, hr, ?_⟩
      simp only [handleEvents, herr, bind, Except.bind]

theorem handler_error_of_handleEvents (w : World σ) (payload : Payload) (store : σ)
    (e : JsError)
    (h : handleEvents w tables payload.request.body.events [] store = Except.error e) :
    handler w payload store = Except.error e := by
  simp only [handler, handlerWith, h, bind, Except.bind]

theorem handler_ok_of_handleEvents (w : World σ) (payload : Payload) (store : σ)
    (ms : List Match) (st : σ)
    (h : handleEvents w tables payload.request.body.events [] store = Except.ok (ms, st)) :
    handler w payload store = Except.ok ({ matchList := ms }, st) := by
  simp only [handler, handlerWith, h, bind, Except.bind]
  rfl

/-- C7: for every event batch, when the evaluator invoked for some match
reason rejects with `e` (the events before and the earlier reasons of the same
event having been handled), the handler rejects with that same `e`, so no
`{ matches }` value is returned, and it does so whatever reasons and events
follow the failing one: none of them is evaluated. Conversely, when no
evaluator invocation rejects, the handler returns a `{ matches }` value. -/
theorem handler_rethrows_evaluator_error (w : World σ) (payload : Payload) (store : σ) :
    (∀ (pre : List Event) (evt : Event) (post : List Event) (rs1 : List Reason) (r : Reason)
        (rs2 : List Reason) (ms1 : List Match) (st1 : σ) (ms2 : List Match) (st2 : σ)
        (e : JsError),
        payload.request.body.events = pre ++ evt :: post →
        evt.matchReasons = rs1 ++ r :: rs2 →
        handleEvents w tables pre [] store = Except.ok (ms1, st1) →
        handleReasons w tables evt.hash rs1 ms1 st1 = Except.ok (ms2, st2) →
        evaluatorFails w tables evt.hash r ms2 st2 e →
        handler w payload store = Except.error e
          ∧ ∀ (rs2' : List Reason) (post' : List Event),
              handler w (payloadOf (pre ++ withReasons evt (rs1 ++ r :: rs2') :: post')) store =
                Except.error e)
      ∧ ((∀ (pre : List Event) (evt : Event) (post : List Event) (rs1 : List Reason)
          (r : Reason) (rs2 : List Reason) (ms1 : List Match) (st1 : σ) (ms2 : List Match)
          (st2 : σ) (e : JsError),
          payload.request.body.events = pre ++ evt :: post →
          evt.matchReasons = rs1 ++ r :: rs2 →
          handleEvents w tables pre [] store = Except.ok (ms1, st1) →
          handleReasons w tables evt.hash rs1 ms1 st1 = Except.ok (ms2, st2) →
          ¬ evaluatorFails w tables evt.hash r ms2 st2 e) →
        ∃ res st, handler w payload store = Except.ok (res, st)) := by
  constructor
  · intro pre evt post rs1 r rs2 ms1 st1 ms2 st2 e hevents hreasons hpre hrs hfail
    have hr := (handleReason_error_iff w tables evt.hash r ms2 st2 e).mpr hfail
    constructor
    · apply handler_error_of_handleEvents
      rw [hevents]
      apply handleEvents_fail w tables pre evt post e [] store ms1 st1 hpre
      rw [hreasons]
      exact handleReasons_fail w tables evt.hash rs1 r rs2 e ms1 st1 ms2 st2 hrs hr
    · intro rs2' post'
      apply handler_error_of_handleEvents
      apply handleEvents_fail w tables pre (withReasons evt (rs1 ++ r :: rs2')) post' e [] store
        ms1 st1 hpre
      exact handleReasons_fail w tables evt.hash rs1 r rs2' e ms1 st1 ms2 st2 hrs hr
  · intro hnone
    rcases handleEvents_ok_or_first_failure w tables payload.request.body.events [] store with
      ⟨ms, st, hok⟩ |
      ⟨pre, evt, post, rs1, r, rs2, ms1, st1, ms2, st2, e, hevents, hreasons, hpre, hrs, hr, _⟩
    · exact ⟨_, st, handler_ok_of_handleEvents w payload store ms st hok⟩
    · exact absurd ((handleReason_error_iff w tables evt.hash r ms2 st2 e).mp hr)
        (hnone pre evt post rs1 r rs2 ms1 st1 ms2 st2 e hevents hreasons hpre hrs)

theorem handler_rethrows_evaluator_error_witness :
    handler poolDownWorld
        (payloadOf
          [ { hash := "0xe1", matchReasons := [unmappedOracleReason, borrowWethReason,
              withdrawReason] },
            { hash := "0xe2", matchReasons := [depositReason] } ]) 0 =
      Except.error (JsError.callException "call revert exception") :=
  ((handler_rethrows_evaluator_error poolDownWorld
      (payloadOf
        [ { hash := "0xe1", matchReasons := [unmappedOracleReason, borrowWethReason,
            withdrawReason] },
          { hash := "0xe2", matchReasons := [depositReason] } ]) 0).1
    [] { hash := "0xe1", matchReasons := [unmappedOracleReason, borrowWethReason,
        withdrawReason] }
    [{ hash := "0xe2", matchReasons := [depositReason] }]
    [unmappedOracleReason] borrowWethReason [withdrawReason] [] 0
    [
      ({ hash := "0xe1",
         metadata := { type := "priceUpdate",
                       fields := (MatchData.priceUpdate [] { isOut := true, details := [] } false) } } : Match)] 0
    (JsError.callException "call revert exception")
    rfl rfl rfl (by decide)
    (Or.inr (Or.inr (Or.inr ⟨by decide, by decide⟩)))).1

/-- The same batch in a world in which the pool read resolves: the handler
returns the match of the first reason, and nothing for the others. -/
theorem handler_poolUp_evaluated :
    handler oracleOutWorld
        (payloadOf
          [ { hash := "0xe1", matchReasons := [unmappedOracleReason, borrowWethReason,
              withdrawReason] },
            { hash := "0xe2", matchReasons := [depositReason] } ]) 0 =
      Except.ok ({ matchList := [
        ({ hash := "0xe1",
           metadata := { type := "priceUpdate",
                         fields := (MatchData.priceUpdate [] { isOut := true, details := [] } false) } } : Match)] }, 0) := by
  decide

/-! ## A price update of an oracle that is not in the table -/

/-- C8 (counterexample): the oracle of `unmappedOracleReason` is in neither
table. The handler of `src/keeper/src/filters/loopStrategy.js` raises no error
for it but, the oracle being reported out, appends a match for it; the handler
of `src/keeper/filters/loopStrategy.js` raises a `TypeError` for it in a world
in which every call succeeds. -/
theorem unmapped_oracle_not_noop :
    lookup unmappedOracle oracleToStrategies = none
      ∧ lookup unmappedOracle Legacy.oracleToStrategies = none
      ∧ handler oracleOutWorld
          (payloadOf [{ hash := "0xe1", matchReasons := [unmappedOracleReason] }]) 0 =
        Except.ok ({ matchList := [
          ({ hash := "0xe1",
             metadata := { type := "priceUpdate",
                           fields := (MatchData.priceUpdate [] { isOut := true, details := [] } false) } } : Match)] }, 0)
      ∧ Legacy.handler Legacy.calmAlertWorld
          (payloadOf [{ hash := "0xe1", matchReasons := [unmappedOracleReason] }]) 0 =
        Except.error (JsError.typeError "oracleToStrategies[reason.address] is not iterable") := by
  refine ⟨by decide, by decide, by decide, by decide⟩

/-- C8 (amended): in `src/keeper/src/filters/loopStrategy.js` a price-update
reason whose oracle address is not a key of `oracleToStrategies` is not an
error on that account: when the reads of the oracle itself (`latestAnswer`,
`isOracleOut`) resolve, the handler raises no error for it, reads no strategy,
and appends a match for it, with an empty `strategiesToRebalance`, exactly when
`oracleState.isOut` or `isSequencerOut` is true; otherwise it appends none. -/
theorem priceUpdate_unmapped_oracle (w : World σ) (reason : Reason) (evtHash : String)
    (ms : List Match) (store store' : σ) (oracleAddress : Address) (latestAnswer : JsValue)
    (oracleState : OracleState)
    (hsig : reason.signature = priceUpdateSig)
    (haddr : w.getAddress (some reason.address) = Except.ok oracleAddress)
    (hkey : lookup oracleAddress oracleToStrategies = none)
    (hanswer : w.latestAnswer oracleAddress = Except.ok latestAnswer)
    (hstate : w.isOracleOut store oracleAddress = Except.ok (oracleState, store')) :
    handleReason w tables evtHash reason ms store =
      Except.ok
        (if oracleState.isOut = true ∨ strictEqualsNumber latestAnswer 1 = true
         then ms ++ [
           ({ hash := evtHash,
              metadata := { type := "priceUpdate",
                            fields := (MatchData.priceUpdate [] oracleState (strictEqualsNumber latestAnswer 1)) } } : Match)]
         else ms, store') := by
  have hmapped : mappedStrategies tables oracleAddress = [] := by
    simp only [mappedStrategies, tables, hkey, Option.getD_none]
  have hloop : rebalanceLoop w (mappedStrategies tables oracleAddress) [] store =
      Except.ok ([], store) := by
    rw [hmapped]
    rfl
  rw [handleReason_priceUpdate w tables evtHash reason ms store hsig,
    handlePriceUpdate_eq w tables reason evtHash ms store store store' oracleAddress latestAnswer
      [] oracleState haddr hanswer hloop hstate]
  simp [createMatch]

theorem priceUpdate_unmapped_oracle_witness :
    handleReason calmWorld tables "0xe1" unmappedOracleReason [] 0 = Except.ok ([], 0) :=
  (priceUpdate_unmapped_oracle calmWorld unmappedOracleReason "0xe1" [] 0 0 unmappedOracle
    (JsValue.bigNumber 250000000000) { isOut := false, details := [] }
    rfl rfl (by decide) rfl rfl).trans (by decide)

/-! ## The scale of the interest thresholds -/

/-- C9 (the code at the failing input): the two table values are
`3 * 10 ^ 27` and `5 * 10 ^ 27`, a hundred times `3 * 10 ^ 25` and
`5 * 10 ^ 25`; a Borrow on the WETH reserve at a live rate of 4% in RAY
(`4 * 10 ^ 25`), and even at 100% (`10 ^ 27`), yields no match. -/
theorem interestThreshold_not_percent_in_ray :
    parseUnits "3.0" 27 = some (3 * 10 ^ 27)
      ∧ parseUnits "5.0" 27 = some (5 * 10 ^ 27)
      ∧ lookup strategyWstEthWeth strategyInterestThreshold = some (100 * (3 * 10 ^ 25))
      ∧ lookup strategyWethUsdc strategyInterestThreshold = some (100 * (5 * 10 ^ 25))
      ∧ lookup strategyWstEthWeth strategyInterestThreshold ≠ some (3 * 10 ^ 25)
      ∧ lookup strategyWethUsdc strategyInterestThreshold ≠ some (5 * 10 ^ 25)
      ∧ handlePoolAction (rateWorld (4 * 10 ^ 25)) tables borrowWethReason "0xe1" [] =
          Except.ok []
      ∧ handlePoolAction (rateWorld (10 ^ 27)) tables borrowWethReason "0xe1" [] =
          Except.ok [] := by
  refine ⟨by decide, by decide, by decide, by decide, by decide, by decide, by decide,
    by decide⟩

/-! ## The exposure check against its specification -/

/-- C10: for every current collateral ratio `c` and every 5-tuple of targets
`t`, `isStrategyOverexposed` returns `current = c`, `min` = the second element
of `t`, and `isOverExposed` true iff `c` is strictly below that element, so
that `c` equal to it is not over-exposed; `c = 100` with `t = [100, 90, 110,
99, 101]` gives `(false, 100, 90)` and `c = 85` gives `(true, 85, 90)`. -/
theorem isStrategyOverexposed_spec (c : BigNumber) (t : CollateralRatioTargets) :
    (isStrategyOverexposed c t).current = c
      ∧ (isStrategyOverexposed c t).min = t.2.1
      ∧ ((isStrategyOverexposed c t).isOverExposed = true ↔ c < t.2.1)
      ∧ (isStrategyOverexposed t.2.1 t).isOverExposed = false
      ∧ isStrategyOverexposed 100 (100, 90, 110, 99, 101) =
          { isOverExposed := false, current := 100, min := 90 }
      ∧ isStrategyOverexposed 85 (100, 90, 110, 99, 101) =
          { isOverExposed := true, current := 85, min := 90 } := by
  refine ⟨rfl, rfl, ?_, ?_, by decide, by decide⟩
  · simp [isStrategyOverexposed]
  · simp [isStrategyOverexposed]

/-! ## Consistency of the static tables -/

/-- The filter callback does throw when a listed strategy has no threshold:
with the entry of the second strategy removed from the threshold table, the
filter over that strategy rejects with the `TypeError` of the missing lookup. -/
theorem filterBelowRate_missing_threshold :
    filterBelowRate [(strategyWstEthWeth, 3 * 10 ^ 27)] (4 * 10 ^ 27) [strategyWethUsdc] =
      Except.error (JsError.typeError "Cannot read properties of undefined (reading lt)") := by
  decide

/-- C11: every strategy address listed under a key of `debtTokenToStrategies`,
and every one listed under a key of `oracleToStrategies`, is a key of
`strategyInterestThreshold`; hence for every reserve address and every borrow
rate the filter step of `handlePoolAction` returns a list and never throws on a
missing threshold, and `handlePoolAction` itself returns whenever its address
normalisations and its pool read resolve. -/
theorem thresholds_cover_listed_strategies (w : World σ) (reason : Reason) (evtHash : String)
    (ms : List Match) (reserve pool : Address) (data : ReserveData)
    (hres : w.getAddress reason.args.head? = Except.ok reserve)
    (hpool : w.getAddress (some reason.address) = Except.ok pool)
    (hdata : w.getReserveData pool reserve = Except.ok data) :
    (∀ kv ∈ debtTokenToStrategies, ∀ s ∈ kv.2,
        (lookup s strategyInterestThreshold).isSome = true)
      ∧ (∀ kv ∈ oracleToStrategies, ∀ s ∈ kv.2,
        (lookup s strategyInterestThreshold).isSome = true)
      ∧ (∀ (anyReserve : Address) (rate : BigNumber), ∃ kept,
        filterBelowRate strategyInterestThreshold rate
          ((lookup anyReserve debtTokenToStrategies).getD []) = Except.ok kept)
      ∧ (∃ ms', handlePoolAction w tables reason evtHash ms = Except.ok ms') := by
  refine ⟨by decide, by decide, ?_, ?_⟩
  · intro anyReserve rate
    cases hkey : lookup anyReserve debtTokenToStrategies with
    | none => exact ⟨[], rfl⟩
    | some strategies =>
      exact ⟨_, filterBelowRate_eq_filter strategyInterestThreshold rate strategies
        (debtToken_thresholds_defined hkey)⟩
  · cases hkey : lookup reserve debtTokenToStrategies with
    | none => exact ⟨ms, handlePoolAction_unmapped w tables reason evtHash ms reserve hres hkey⟩
    | some strategies =>
      exact ⟨_, handlePoolAction_mapped w tables reason evtHash ms reserve pool strategies data
        hres hkey hpool hdata (debtToken_thresholds_defined hkey)⟩

theorem thresholds_cover_listed_strategies_witness :
    ∃ ms', handlePoolAction (rateWorld (6 * 10 ^ 27)) tables borrowWethReason "0xe3" [] =
      Except.ok ms' :=
  (thresholds_cover_listed_strategies (rateWorld (6 * 10 ^ 27)) borrowWethReason "0xe3" []
    reserveWeth borrowWethReason.address { zeroReserveData with f3 := 6 * 10 ^ 27 }
    rfl rfl rfl).2.2.2

end Keeper
